import Mathlib

/-!
Verification of the multiagent-debate repository core: Python string
helpers, final-answer extraction, correctness scoring, the resumable
experiment runner, token-usage accounting, protocol arity checks and the
British-Parliamentary streaming interruption controller, shallowly
embedded in Lean from the Python source.
-/

namespace MAD

/-! Python string primitives used by the source (str.strip, str.lower,
the `in` operator and str.split). Strings are modelled through their
character lists. -/

/-- Python default whitespace set for str.strip(): space, tab, newline,
vertical tab, form feed, carriage return. -/
def isPySpace (c : Char) : Bool :=
  c = ' ' || c = Char.ofNat 9 || c = Char.ofNat 10 || c = Char.ofNat 11 ||
  c = Char.ofNat 12 || c = Char.ofNat 13

/-- Membership in Python string.punctuation, which is exactly the four
ASCII ranges 33-47, 58-64, 91-96, 123-126. -/
def isPyPunct (c : Char) : Bool :=
  (33 ≤ c.toNat && c.toNat ≤ 47) || (58 ≤ c.toNat && c.toNat ≤ 64) ||
  (91 ≤ c.toNat && c.toNat ≤ 96) || (123 ≤ c.toNat && c.toNat ≤ 126)

/-- Python str.strip(chars): remove leading and trailing characters
satisfying p. -/
def stripEnds (p : Char → Bool) (l : List Char) : List Char :=
  ((l.dropWhile p).reverse.dropWhile p).reverse

/-- Python str.strip() on character lists (default whitespace). -/
def pyStrip (l : List Char) : List Char := stripEnds isPySpace l

/-- Python str.strip() on strings. -/
def pyStripStr (s : String) : String := String.mk (pyStrip s.toList)

/-- Python str.lower() (ASCII model). -/
def pyLower (l : List Char) : List Char := l.map Char.toLower

/-- Does the pattern list occur at the head of the second list? -/
def startsWith : List Char → List Char → Bool
  | [], _ => true
  | _ :: _, [] => false
  | p :: ps, c :: cs => p = c && startsWith ps cs

/-- Leftmost occurrence search: returns the part before the first
occurrence of the needle and the part after it, or none when the needle
does not occur. This models Python substring search (str.find and the
`in` operator, and one step of str.split). -/
def findSub (needle : List Char) : List Char → Option (List Char × List Char)
  | [] => if startsWith needle [] then some ([], []) else none
  | c :: t =>
    if startsWith needle (c :: t) then some ([], (c :: t).drop needle.length)
    else
      match findSub needle t with
      | none => none
      | some (p, q) => some (c :: p, q)

/-- Python `needle in hay` for strings, via leftmost-occurrence search. -/
def containsSub (hay needle : List Char) : Bool := (findSub needle hay).isSome

/-- Python `needle in hay` on Lean strings. -/
def strContains (hay needle : String) : Bool := containsSub hay.toList needle.toList

/-- Python s.split(needle, 1)[1]: the part after the first occurrence of
the needle; falls back to s itself when the needle is absent (all call
sites in the source guard on containment first). -/
def strAfterFirst (needle s : String) : String :=
  match findSub needle.toList s.toList with
  | some (_, q) => String.mk q
  | none => s

/-! Final-answer extraction, from DebateProtocol._extract_final_answer in
src/protocols/base.py: if the literal marker occurs in the text, return
text.split(marker)[-1].strip(), else return the text unchanged. -/

/-- The literal marker used by the source. -/
def finalMarker : List Char := "Final Answer:".toList

/-- Fuelled worker for splitFinal; the fuel only bounds the recursion
depth (one unit per occurrence of the marker) and s.length units always
suffice. -/
def splitFinalF (fuel : Nat) (s : List Char) : List (List Char) :=
  match fuel with
  | 0 => [s]
  | fuel + 1 =>
    match findSub finalMarker s with
    | none => [s]
    | some (p, q) => p :: splitFinalF fuel q

/-- Python text.split("Final Answer:"): the list of parts between the
left-to-right non-overlapping occurrences of the marker. -/
def splitFinal (s : List Char) : List (List Char) := splitFinalF s.length s

/-- Fuelled worker for afterLastFinal. -/
def afterLastFinalF (fuel : Nat) (s : List Char) : List Char :=
  match fuel with
  | 0 => s
  | fuel + 1 =>
    match findSub finalMarker s with
    | none => s
    | some (_, q) => afterLastFinalF fuel q

/-- The suffix of s after the last occurrence of the marker (s itself
when the marker is absent). -/
def afterLastFinal (s : List Char) : List Char := afterLastFinalF s.length s

/-- Embedding of DebateProtocol._extract_final_answer. -/
def extractFinalAnswer (text : String) : String :=
  if containsSub text.toList finalMarker then
    String.mk (pyStrip ((splitFinal text.toList).getLastD []))
  else text

/-! Correctness scoring, from ExperimentRunner._evaluate_correctness in
src/experiment/runner.py: normalize both strings with
s.lower().strip(string.punctuation).strip(); an empty normalized ground
truth scores False, otherwise the score is the substring test
gt_norm in pred_norm. -/

/-- Embedding of the inner normalize helper: lowercase, strip leading
and trailing punctuation, then strip leading and trailing whitespace. -/
def normalize (s : String) : String :=
  String.mk (stripEnds isPySpace (stripEnds isPyPunct (pyLower s.toList)))

/-- Embedding of ExperimentRunner._evaluate_correctness. -/
def evaluateCorrectness (prediction groundTruth : String) : Bool :=
  let predNorm := normalize prediction
  let gtNorm := normalize groundTruth
  if gtNorm = "" then false
  else strContains predNorm gtNorm

/-! Experiment runner, from ExperimentRunner.run_experiment in
src/experiment/runner.py. A dataset item carries a question and a
ground-truth answer; a result entry is either a scored protocol result
(every protocol result dict contains its question) or the error record
appended by the per-item except branch. The persisted run state is the
triple written by _save_results: the result list plus the two counters
stored in the metadata member. -/

structure Item where
  question : String
  answer : String
deriving DecidableEq

inductive ResultEntry where
  | ok (question finalAnswer groundTruth : String) (isCorrect : Bool)
  | err (question errorMessage : String)
deriving DecidableEq

/-- The value of r.get("question") on a result entry: both kinds of
entries the runner ever appends carry their question. -/
def entryQuestion : ResultEntry → String
  | .ok q _ _ _ => q
  | .err q _ => q

structure RunState where
  results : List ResultEntry
  correctCount : Nat
  totalCount : Nat
deriving DecidableEq

/-- The state before any item is processed when no prior output exists. -/
def freshRunState : RunState := ⟨[], 0, 0⟩

/-- One non-skipped iteration of the per-item loop: run the protocol
(modelled as a function from the question to a final answer or an
exception message) and either score and append the result, or append an
error entry; the counters are incremented only on success. -/
def processItem (proto : String → Except String String) (st : RunState) (item : Item) : RunState :=
  match proto item.question with
  | .ok finalAnswer =>
    let isCorrect := evaluateCorrectness finalAnswer item.answer
    { results := st.results ++ [.ok item.question finalAnswer item.answer isCorrect]
      correctCount := st.correctCount + (if isCorrect then 1 else 0)
      totalCount := st.totalCount + 1 }
  | .error e =>
    { st with results := st.results ++ [.err item.question e] }

/-- The per-item loop of run_experiment. processed is the dedup set
built once from the prior results; the source never extends it inside
the loop. The second component is the list of questions actually
processed (one protocol invocation each); skipped items contribute
nothing to it. -/
def runLoop (proto : String → Except String String) (processed : List String) :
    List Item → RunState → RunState × List String
  | [], st => (st, [])
  | item :: rest, st =>
    if item.question ∈ processed then runLoop proto processed rest st
    else
      let st2 := processItem proto st item
      let next := runLoop proto processed rest st2
      (next.1, item.question :: next.2)

/-- Embedding of ExperimentRunner.run_experiment over a fixed dataset
slice: prior is the run state recovered from the existing output file
(freshRunState when the file is absent or undecodable); the dedup keys
are the raw question strings of the prior results. -/
def runExperiment (proto : String → Except String String) (data : List Item)
    (prior : RunState) : RunState × List String :=
  runLoop proto (prior.results.map entryQuestion) data prior

/-- The entry the loop body appends for one processed item. -/
def entryFor (proto : String → Except String String) (item : Item) : ResultEntry :=
  match proto item.question with
  | .ok fa => .ok item.question fa item.answer (evaluateCorrectness fa item.answer)
  | .error e => .err item.question e

/-- Whether one processed item increments correct_count. -/
def correctBool (proto : String → Except String String) (item : Item) : Bool :=
  match proto item.question with
  | .ok fa => evaluateCorrectness fa item.answer
  | .error _ => false

/-- Whether one processed item increments total_count. -/
def okBool (proto : String → Except String String) (item : Item) : Bool :=
  match proto item.question with
  | .ok _ => true
  | .error _ => false

/-! Token accounting, from LLMProvider in src/llm/base.py together with
the MockProvider initializer in src/llm/mock.py. The usage counter
attributes exist on an instance only after the base-class initializer
has run; MockProvider.__init__ overrides it with a body of pass, so its
instances have no counters. The counters are therefore modelled as an
optional record: reads through get_usage or add_usage fail with an
AttributeError result when the attributes are absent, while reset_usage
assigns the attributes and thus always succeeds. -/

structure ProviderUsage where
  promptTokens : Nat
  completionTokens : Nat
deriving DecidableEq

/-- LLMProvider.__init__: both cumulative counters set to 0. -/
def llmProviderInit : Option ProviderUsage := some ⟨0, 0⟩

/-- MockProvider.__init__: pass, the base initializer never runs. -/
def mockProviderInit : Option ProviderUsage := none

/-- LLMProvider.add_usage: the augmented assignments read the counters
first, so they fail on an instance without the attributes. -/
def addUsage (st : Option ProviderUsage) (p c : Nat) : Except String (Option ProviderUsage) :=
  match st with
  | none => .error "AttributeError: prompt_tokens"
  | some u => .ok (some ⟨u.promptTokens + p, u.completionTokens + c⟩)

structure UsageReport where
  promptTokens : Nat
  completionTokens : Nat
  totalTokens : Nat
deriving DecidableEq

/-- LLMProvider.get_usage. -/
def getUsage (st : Option ProviderUsage) : Except String UsageReport :=
  match st with
  | none => .error "AttributeError: prompt_tokens"
  | some u => .ok ⟨u.promptTokens, u.completionTokens, u.promptTokens + u.completionTokens⟩

/-- LLMProvider.reset_usage: plain attribute assignment, which succeeds
(and creates the attributes) on any instance. -/
def resetUsage (_ : Option ProviderUsage) : Option ProviderUsage := some ⟨0, 0⟩

/-- One add_usage call on an initialized provider. -/
def applyUsage (u : ProviderUsage) (pc : Nat × Nat) : ProviderUsage :=
  ⟨u.promptTokens + pc.1, u.completionTokens + pc.2⟩

/-- A sequence of add_usage calls on an initialized provider. -/
def applyUsageCalls (u : ProviderUsage) (calls : List (Nat × Nat)) : ProviderUsage :=
  calls.foldl applyUsage u

/-! JSON values, the resume-load block of run_experiment (lines 39-63 of
src/experiment/runner.py), the metadata written by
ExperimentRunner._save_results, and load_metadata from main.py. The
try/except around the load catches only json.JSONDecodeError, so a file
that is not decodable JSON is modelled as an error input and is handled,
while exceptions raised after decoding (AttributeError from r.get on a
non-dict, TypeError from iterating a non-sequence) escape the handler;
they are modelled as error results of the load step. -/

inductive JVal where
  | jnull
  | jbool (b : Bool)
  | jnum (q : ℚ)
  | jstr (s : String)
  | jarr (xs : List JVal)
  | jobj (fields : List (String × JVal))

/-- Python dict lookup on the association list of an object. -/
def jlookup (fields : List (String × JVal)) (k : String) : Option JVal :=
  match fields with
  | [] => none
  | (k2, v) :: rest => if k2 = k then some v else jlookup rest k

/-- Python iteration (for r in results): lists yield elements, strings
yield one-character strings, dicts yield their keys, everything else
raises TypeError. -/
def pyIter : JVal → Except String (List JVal)
  | .jarr xs => .ok xs
  | .jstr s => .ok (s.toList.map (fun c => .jstr (String.mk [c])))
  | .jobj fields => .ok (fields.map (fun kv => .jstr kv.1))
  | _ => .error "TypeError: object is not iterable"

/-- Python r.get(k): only dict values have the get method; on anything
else attribute lookup raises AttributeError. -/
def pyGet (v : JVal) (k : String) : Except String (Option JVal) :=
  match v with
  | .jobj fields => .ok (jlookup fields k)
  | _ => .error "AttributeError: get"

/-- Python v[k] subscription on an object: KeyError when the key is
absent, TypeError when v is not subscriptable by a string key. -/
def pySubscript (v : JVal) (k : String) : Except String JVal :=
  match v with
  | .jobj fields =>
    match jlookup fields k with
    | some x => .ok x
    | none => .error "KeyError"
  | _ => .error "TypeError: not subscriptable"

/-- The Python variables (results, correct_count, total_count) after the
resume-load block, plus the processed_ids set contents (r.get("question")
for each prior result; None when the key is absent). -/
structure LoadedState where
  results : JVal
  correctCount : JVal
  totalCount : JVal
  processedIds : List (Option JVal)

/-- The metadata branch of the resume-load block: counters are restored
through existing_data["metadata"].get(..., 0) when the metadata member
is present (its get call raises when that member is not a dict), and
keep their initial value 0 otherwise. -/
def loadCounts (fields : List (String × JVal)) : Except String (JVal × JVal) :=
  match jlookup fields "metadata" with
  | none => .ok (.jnum 0, .jnum 0)
  | some m =>
    match pyGet m "correct_count" with
    | .error e => .error e
    | .ok cc =>
      match pyGet m "total_count" with
      | .error e => .error e
      | .ok tc => .ok (cc.getD (.jnum 0), tc.getD (.jnum 0))

/-- The isinstance dispatch of the resume-load block: a decoded list is
taken as the old-format result list; a dict with a "results" member
supplies the results and (optionally) the counters; any other decoded
value leaves the initial empty results and zero counters in place. -/
def loadResultsAndCounts (v : JVal) : Except String (JVal × JVal × JVal) :=
  match v with
  | .jarr xs => .ok (.jarr xs, .jnum 0, .jnum 0)
  | .jobj fields =>
    match jlookup fields "results" with
    | some r =>
      match loadCounts fields with
      | .error e => .error e
      | .ok (cc, tc) => .ok (r, cc, tc)
    | none => .ok (.jarr [], .jnum 0, .jnum 0)
  | _ => .ok (.jarr [], .jnum 0, .jnum 0)

/-- The processed_ids population loop: processed_ids.add(r.get("question"))
for each r; r.get raises AttributeError when r is not a dict. -/
def buildProcessed : List JVal → Except String (List (Option JVal))
  | [] => .ok []
  | r :: rest =>
    match pyGet r "question" with
    | .error e => .error e
    | .ok q =>
      match buildProcessed rest with
      | .error e => .error e
      | .ok acc => .ok (q :: acc)

/-- The whole resume-load step: the input is the outcome of json.load on
the existing file (error = json.JSONDecodeError). A decode error is
caught and the run starts fresh with a warning; any decoded value is then
dispatched, iterated and mined for questions, and the errors those steps
raise propagate out of the except json.JSONDecodeError handler. -/
def loadResume (parsed : Except String JVal) : Except String LoadedState :=
  match parsed with
  | .error _ => .ok ⟨.jarr [], .jnum 0, .jnum 0, []⟩
  | .ok v =>
    match loadResultsAndCounts v with
    | .error e => .error e
    | .ok (r, cc, tc) =>
      match pyIter r with
      | .error e => .error e
      | .ok rs =>
        match buildProcessed rs with
        | .error e => .error e
        | .ok ids => .ok ⟨r, cc, tc, ids⟩

/-- The accuracy computed by _save_results (and at the end of
run_experiment): correct_count / total_count, or 0.0 when total_count is
0; modelled with exact rationals in place of floats. -/
def accuracyOf (cc tc : Nat) : ℚ := if 0 < tc then (cc : ℚ) / (tc : ℚ) else 0

/-- The metadata member written by ExperimentRunner._save_results: it
contains exactly the protocol name, dataset name, timestamp, accuracy
and the two counters, and in particular no token-usage members. -/
def saveMetadataFields (protocolName datasetName timestampStr : String)
    (cc tc : Nat) : List (String × JVal) :=
  [("protocol", .jstr protocolName), ("dataset", .jstr datasetName),
   ("timestamp", .jstr timestampStr), ("accuracy", .jnum (accuracyOf cc tc)),
   ("correct_count", .jnum cc), ("total_count", .jnum tc)]

/-- The whole output file written by _save_results. -/
def saveResultsFile (protocolName datasetName timestampStr : String)
    (results : List JVal) (cc tc : Nat) : JVal :=
  .jobj [("metadata", .jobj (saveMetadataFields protocolName datasetName timestampStr cc tc)),
         ("results", .jarr results)]

/-- The per-protocol record the multi-run driver places into the run
summary. -/
structure SummaryEntry where
  accuracy : JVal
  promptTokens : JVal
  completionTokens : JVal
  totalTokens : JVal

/-- Embedding of load_metadata from main.py: reads data["metadata"],
then meta["accuracy"] (a KeyError when absent) and the three token
counts through meta.get(..., 0). -/
def loadMetadata (fileContent : JVal) : Except String SummaryEntry :=
  match pySubscript fileContent "metadata" with
  | .error e => .error e
  | .ok meta =>
    match pySubscript meta "accuracy" with
    | .error e => .error e
    | .ok acc =>
      match pyGet meta "prompt_tokens" with
      | .error e => .error e
      | .ok p =>
        match pyGet meta "completion_tokens" with
        | .error e => .error e
        | .ok c =>
          match pyGet meta "total_tokens" with
          | .error e => .error e
          | .ok t => .ok ⟨acc, p.getD (.jnum 0), c.getD (.jnum 0), t.getD (.jnum 0)⟩

/-! Agents and the four debate protocols, from src/agents/agent.py and
src/protocols/. An agent is modelled by its name together with the
deterministic responses of its backend: speak maps the full prompt that
DebaterAgent.speak sends to provider.generate to the returned text, and
stream maps the full prompt of speak_stream to the list of streamed
fragments. The agent memory list is write-only in the source (appended,
never read, and the agents are rebuilt for every question), so it is
elided. Each protocol run returns the result dict as an Except value
(an arity violation raises ValueError in the source) paired with the
list of full prompts actually sent to the backend, in the order the
calls happen (for the streaming protocol, the stream prompt first, then
the check prompts, then the POI-response prompts, then the closing
prompts). Prompt template texts are kept only to the extent the control
flow depends on them; the elided parts are free text. -/

structure Turn where
  role : String
  content : String
deriving DecidableEq

structure Agent where
  name : String
  speak : String → String
  stream : String → List String

/-- DebaterAgent.speak and speak_stream build the backend prompt as the
context followed by a fixed persona-reminder suffix naming the agent. -/
def buildFullPrompt (name context : String) : String :=
  context ++ "\n\n(You are " ++ name ++ ". Respond accordingly.)"

/-- One backend generate call through DebaterAgent.speak. -/
def agentSpeak (a : Agent) (context : String) : String :=
  a.speak (buildFullPrompt a.name context)

/-- One backend generate_stream call through DebaterAgent.speak_stream. -/
def agentStream (a : Agent) (context : String) : List String :=
  a.stream (buildFullPrompt a.name context)

structure ProtResult where
  protocol : String
  question : String
  transcript : List Turn
  finalAnswer : String
  interruptions : Option Nat

/-- Prompt of SingleCoTProtocol.run (free text abridged). -/
def singleCoTPrompt (context question : String) : String :=
  "You are answering a question from a QA benchmark.\n\nContext:\n" ++ context ++
  "\n\nQuestion: " ++ question ++
  "\n\n1. Think step by step and write a short reasoning.\n" ++
  "2. Then, on a new line, give your final answer in EXACTLY this format:\n" ++
  "Final Answer: <one short answer only>"

/-- Embedding of SingleCoTProtocol.run. -/
def singleCoTRun (question : String) (agents : List Agent) (context : String) :
    Except String ProtResult × List String :=
  match agents with
  | [agent] =>
    let prompt := singleCoTPrompt context question
    let response := agentSpeak agent prompt
    (.ok { protocol := "SingleCoT", question := question,
           transcript := [⟨agent.name, response⟩],
           finalAnswer := extractFinalAnswer response, interruptions := none },
     [buildFullPrompt agent.name prompt])
  | _ => (.error "SingleCoTProtocol requires exactly one agent.", [])

/-- Initial Student prompt of SocraticDialogueProtocol.run (abridged). -/
def socStudentPrompt (context question : String) : String :=
  "You are a careful but concise student answering a question in a QA exam.\n\nContext:\n" ++
  context ++ "\n\nQuestion: " ++ question ++
  "\n\nThink step by step, then write: Provisional Answer: <short answer>."

/-- Socrates prompt, built from the running dialogue context (abridged). -/
def socSocratesPrompt (currentContext : String) : String :=
  currentContext ++
  "\n\nYou are Socrates helping the student improve factual accuracy on this QA task. " ++
  "Ask exactly ONE short question. Output ONLY your question, nothing else."

/-- Student revision prompt (abridged). -/
def socStudentReplyPrompt (question socratesResponse : String) : String :=
  "You are revising your answer to a QA exam question.\n\nQuestion: " ++ question ++
  "\nSocrates asked: " ++ socratesResponse ++
  "\n\nEnd with: Provisional Answer: <your best updated short answer>."

/-- Final Socratic summary prompt (abridged). -/
def socSummaryPrompt (question currentContext : String) : String :=
  "You are now giving the final answer to a QA benchmark question.\n\nQuestion: " ++
  question ++ "\n\nHere is your previous reasoning and dialogue with Socrates:\n" ++
  currentContext ++
  "\n\nOutput exactly ONE line in this format:\nFinal Answer: <one short answer only>"

structure SocState where
  studentResponse : String
  currentContext : String
  transcript : List Turn
  callLog : List String

/-- One Socratic round: Socrates asks one question, the student revises;
both listen calls touch only the write-only memory. -/
def socraticRound (question : String) (student socrates : Agent) (st : SocState) : SocState :=
  let socPrompt := socSocratesPrompt st.currentContext
  let socResponse := agentSpeak socrates socPrompt
  let ctx2 := st.currentContext ++ "\nSocrates: " ++ socResponse
  let replyPrompt := socStudentReplyPrompt question socResponse
  let studentResponse := agentSpeak student replyPrompt
  { studentResponse := studentResponse
    currentContext := ctx2 ++ "\nStudent: " ++ studentResponse
    transcript := st.transcript ++ [⟨socrates.name, socResponse⟩, ⟨student.name, studentResponse⟩]
    callLog := st.callLog ++
      [buildFullPrompt socrates.name socPrompt, buildFullPrompt student.name replyPrompt] }

def socraticRounds (question : String) (student socrates : Agent) :
    Nat → SocState → SocState
  | 0, st => st
  | n + 1, st => socraticRounds question student socrates n (socraticRound question student socrates st)

/-- Embedding of SocraticDialogueProtocol.run. -/
def socraticRun (question : String) (agents : List Agent) (context : String) (rounds : Nat) :
    Except String ProtResult × List String :=
  match agents with
  | [student, socrates] =>
    let sp := socStudentPrompt context question
    let sr := agentSpeak student sp
    let st0 : SocState :=
      { studentResponse := sr
        currentContext := "Question: " ++ question ++ "\nStudent Answer:\n" ++ sr
        transcript := [⟨student.name, sr⟩]
        callLog := [buildFullPrompt student.name sp] }
    let stN := socraticRounds question student socrates rounds st0
    let fp := socSummaryPrompt question stN.currentContext
    let fr := agentSpeak student fp
    (.ok { protocol := "SocraticDialogue", question := question,
           transcript := stN.transcript ++ [⟨student.name, fr⟩],
           finalAnswer := extractFinalAnswer fr, interruptions := none },
     stN.callLog ++ [buildFullPrompt student.name fp])
  | _ => (.error "SocraticDialogueProtocol requires exactly two agents (Student, Socrates).", [])

/-- Affirmative opening prompt of AmericanCongressProtocol.run (abridged). -/
def conAffPrompt (context question : String) : String :=
  "You are the Affirmative side in a congressional-style debate on a QA benchmark question.\n\nContext:\n" ++
  context ++ "\n\nQuestion: " ++ question ++
  "\n\nEnd your response with a line starting with exactly: Proposed Answer: "

/-- Negative opening prompt (abridged). -/
def conNegPrompt (question affResponse : String) : String :=
  "You are the Negative side in a congressional-style debate on a QA benchmark question.\n\nQuestion: " ++
  question ++ "\n\nThe Affirmative side said:\n" ++ affResponse ++
  "\n\nEnd with two lines:\nVerdict: <AGREE or DISAGREE>\nOpposition Proposed Answer: <short answer>"

/-- Affirmative rebuttal prompt (abridged). -/
def conAffRebuttalPrompt (question negResponse : String) : String :=
  "Question: " ++ question ++ "\n\nThe Negative side just said:\n" ++ negResponse ++
  "\n\nYou are the Affirmative side responding in a rebuttal. " ++
  "End with a line: Proposed Answer: <your current best short answer>."

/-- Negative rebuttal prompt (abridged). -/
def conNegRebuttalPrompt (question affResponse : String) : String :=
  "Question: " ++ question ++ "\n\nThe Affirmative side just said:\n" ++ affResponse ++
  "\n\nYou are the Negative side responding in a rebuttal. " ++
  "End with two lines:\nVerdict: <AGREE or DISAGREE>\nOpposition Proposed Answer: <short answer>."

/-- A plain-text rendering of the transcript list interpolated into the
closing Congress prompt (the source interpolates the Python list of
turn dicts; only the fact that the prompt depends on the transcript
matters here). -/
def transcriptText (ts : List Turn) : String :=
  match ts with
  | [] => ""
  | t :: rest => t.role ++ ": " ++ t.content ++ "\n" ++ transcriptText rest

/-- Final Congress prompt (abridged). -/
def conFinalPrompt (question transcriptStr : String) : String :=
  "You are the Affirmative side giving a final, concise answer to a QA benchmark question after a congressional-style debate.\n\nQuestion: " ++
  question ++ "\n\nHere is the debate transcript:\n" ++ transcriptStr ++
  "\n\nOutput exactly ONE line in this format:\nFinal Answer: <one short answer only>"

structure CongressState where
  affResponse : String
  negResponse : String
  transcript : List Turn
  callLog : List String

/-- One rebuttal exchange of the Congress protocol. -/
def congressRound (question : String) (aff neg : Agent) (st : CongressState) : CongressState :=
  let ap := conAffRebuttalPrompt question st.negResponse
  let ar := agentSpeak aff ap
  let np := conNegRebuttalPrompt question ar
  let nr := agentSpeak neg np
  { affResponse := ar
    negResponse := nr
    transcript := st.transcript ++ [⟨aff.name, ar⟩, ⟨neg.name, nr⟩]
    callLog := st.callLog ++ [buildFullPrompt aff.name ap, buildFullPrompt neg.name np] }

def congressRounds (question : String) (aff neg : Agent) :
    Nat → CongressState → CongressState
  | 0, st => st
  | n + 1, st => congressRounds question aff neg n (congressRound question aff neg st)

/-- Embedding of AmericanCongressProtocol.run; the source loops
range(rounds - 1) over rebuttal exchanges. -/
def congressRun (question : String) (agents : List Agent) (context : String) (rounds : Nat) :
    Except String ProtResult × List String :=
  match agents with
  | [aff, neg] =>
    let ap := conAffPrompt context question
    let ar := agentSpeak aff ap
    let np := conNegPrompt question ar
    let nr := agentSpeak neg np
    let st0 : CongressState :=
      { affResponse := ar, negResponse := nr
        transcript := [⟨aff.name, ar⟩, ⟨neg.name, nr⟩]
        callLog := [buildFullPrompt aff.name ap, buildFullPrompt neg.name np] }
    let stN := congressRounds question aff neg (rounds - 1) st0
    let fp := conFinalPrompt question (transcriptText stN.transcript)
    let fr := agentSpeak aff fp
    (.ok { protocol := "AmericanCongress", question := question,
           transcript := stN.transcript ++ [⟨aff.name, fr⟩],
           finalAnswer := extractFinalAnswer fr, interruptions := none },
     stN.callLog ++ [buildFullPrompt aff.name fp])
  | _ => (.error "AmericanCongressProtocol requires exactly two agents (Affirmative, Negative).", [])

/-! The British-Parliamentary protocol and its streaming interruption
controller, from BritishParliamentaryProtocol.run in
src/protocols/british.py. -/

/-- Python endswith with the tuple of sentence-terminal marks. -/
def endsWithTerminal (s : String) : Bool :=
  match s.toList.getLast? with
  | some c => c = '.' || c = '?' || c = '!'
  | none => false

/-- The check-point condition of the streaming loop, verbatim from the
source: len(chunk) > 120 or (chunk.strip() ends with a sentence-terminal
mark and len(chunk) > 40). -/
def checkCond (chunk : String) : Bool :=
  chunk.length > 120 || (endsWithTerminal (pyStripStr chunk) && chunk.length > 40)

/-- The reason extracted from an interrupt decision:
decision.split("INTERRUPT:", 1)[1].strip(). -/
def reasonOf (decision : String) : String :=
  pyStripStr (strAfterFirst "INTERRUPT:" decision)

/-- Government opening prompt for the streamed speech (abridged). -/
def govOpeningPrompt (context question : String) : String :=
  "You are the Government side in a British Parliamentary style debate on a QA benchmark question.\n\nContext:\n" ++
  context ++ "\n\nQuestion: " ++ question ++
  "\n\nGive an opening speech supporting a concrete short answer, including a line of the form Proposed Answer: <short answer>."

/-- Private Opposition check prompt at a check point; the chunk is
interpolated stripped (abridged). -/
def oppCheckPrompt (question strippedChunk : String) : String :=
  "Question: " ++ question ++
  "\n\nThe Government just said (this part of their speech):\n" ++ strippedChunk ++
  "\n\nIf there is a clear factual issue respond EXACTLY as INTERRUPT: <one short sentence>, otherwise respond with exactly NO."

/-- Government response-to-POI prompt (abridged). -/
def govAddressPrompt (question reason : String) : String :=
  "Question: " ++ question ++
  "\n\nThe Opposition offered a Point of Information (POI): " ++ reason ++
  "\n\nYou are the Government. Briefly address this POI in at most 3 sentences."

/-- Opposition rebuttal prompt (abridged). -/
def oppRebuttalPrompt (question fullSpeech : String) : String :=
  "You are the Opposition side in a British Parliamentary style debate on a QA benchmark question.\n\nQuestion: " ++
  question ++ "\n\nThe Government full speech was:\n" ++ fullSpeech ++
  "\n\nGive a closing rebuttal ending with Opposition Proposed Answer: <short answer>."

/-- Final Government prompt (abridged). -/
def britishFinalPrompt (question oppResponse : String) : String :=
  "You are the Government side giving a final, concise answer after a British Parliamentary style debate.\n\nQuestion: " ++
  question ++ "\n\nThe Opposition has given a rebuttal:\n" ++ oppResponse ++
  "\n\nOutput exactly ONE line in this format:\nFinal Answer: <one short answer only>"

/-- The state of the streaming loop: the running full-speech buffer, the
current-chunk buffer, the interruption counter, the public transcript
turns appended during streaming, and the backend prompts sent to each
side at check points. -/
structure StreamState where
  fullSpeech : String
  currentChunk : String
  interruptionCount : Nat
  transcript : List Turn
  oppPrompts : List String
  govPrompts : List String

def initStreamState : StreamState := ⟨"", "", 0, [], [], []⟩

/-- The token loop of the Government opening: each fragment extends both
buffers; when the check condition fires the Opposition is consulted; an
INTERRUPT decision records the POI turn and the Government response turn
and increments the counter; in either case the chunk buffer resets. -/
def britishStreamLoop (question : String) (gov opp : Agent) :
    List String → StreamState → StreamState
  | [], st => st
  | tok :: rest, st =>
    let full := st.fullSpeech ++ tok
    let chunk := st.currentChunk ++ tok
    if checkCond chunk then
      let prompt := oppCheckPrompt question (pyStripStr chunk)
      let decision := agentSpeak opp prompt
      if strContains decision "INTERRUPT:" then
        let reason := reasonOf decision
        let gprompt := govAddressPrompt question reason
        let gresp := agentSpeak gov gprompt
        britishStreamLoop question gov opp rest
          { fullSpeech := full, currentChunk := ""
            interruptionCount := st.interruptionCount + 1
            transcript := st.transcript ++
              [⟨opp.name, "POI: " ++ reason⟩, ⟨gov.name, "Response to POI: " ++ gresp⟩]
            oppPrompts := st.oppPrompts ++ [buildFullPrompt opp.name prompt]
            govPrompts := st.govPrompts ++ [buildFullPrompt gov.name gprompt] }
      else
        britishStreamLoop question gov opp rest
          { fullSpeech := full, currentChunk := ""
            interruptionCount := st.interruptionCount
            transcript := st.transcript
            oppPrompts := st.oppPrompts ++ [buildFullPrompt opp.name prompt]
            govPrompts := st.govPrompts }
    else
      britishStreamLoop question gov opp rest
        { st with fullSpeech := full, currentChunk := chunk }

/-- The chunks at which the check condition fires, by the same chunk
accumulation and reset discipline as the loop (the chunk resets at every
check point whatever the Opposition answers). -/
def checkPoints : List String → String → List String
  | [], _ => []
  | tok :: rest, chunk =>
    let c := chunk ++ tok
    if checkCond c then c :: checkPoints rest "" else checkPoints rest c

/-- Concatenation of the streamed fragments. -/
def joinAll : List String → String
  | [] => ""
  | s :: rest => s ++ joinAll rest

/-- Embedding of BritishParliamentaryProtocol.run. The rounds argument
exists in the source signature and is unused there too. -/
def britishRun (question : String) (agents : List Agent) (context : String) (_rounds : Nat) :
    Except String ProtResult × List String :=
  match agents with
  | [gov, opp] =>
    let gp := govOpeningPrompt context question
    let tokens := agentStream gov gp
    let st := britishStreamLoop question gov opp tokens
      { initStreamState with
        transcript := [⟨"System", "Government (" ++ gov.name ++ ") starts speaking."⟩] }
    let t1 := st.transcript ++ [⟨gov.name, "Full Speech: " ++ st.fullSpeech⟩]
    let rp := oppRebuttalPrompt question st.fullSpeech
    let oppResponse := agentSpeak opp rp
    let t2 := t1 ++ [⟨opp.name, oppResponse⟩]
    let fp := britishFinalPrompt question oppResponse
    let finalResponse := agentSpeak gov fp
    (.ok { protocol := "BritishParliamentary", question := question
           transcript := t2 ++ [⟨gov.name, finalResponse⟩]
           finalAnswer := extractFinalAnswer finalResponse
           interruptions := some st.interruptionCount },
     [buildFullPrompt gov.name gp] ++ st.oppPrompts ++ st.govPrompts ++
       [buildFullPrompt opp.name rp, buildFullPrompt gov.name fp])
  | _ => (.error "BritishParliamentaryProtocol requires exactly two agents (Government, Opposition).", [])

/-! Supporting lemmas. -/

/-! Basic lemmas about the substring search machinery. -/

theorem startsWith_iff (n : List Char) : ∀ h : List Char, startsWith n h = true ↔ ∃ s, h = n ++ s := by
  induction n with
  | nil => intro h; simp [startsWith]
  | cons p ps ih =>
    intro h
    cases h with
    | nil => simp [startsWith]
    | cons c cs =>
      simp only [startsWith, Bool.and_eq_true, decide_eq_true_eq, ih cs]
      constructor
      · rintro ⟨rfl, s, rfl⟩; exact ⟨s, rfl⟩
      · rintro ⟨s, hs⟩
        injection hs with h1 h2
        exact ⟨h1.symm, s, h2⟩

theorem startsWith_drop {n h : List Char} (hs : startsWith n h = true) :
    h = n ++ h.drop n.length := by
  obtain ⟨s, rfl⟩ := (startsWith_iff n h).mp hs
  simp

theorem findSub_some_decomp {n : List Char} :
    ∀ {h p q : List Char}, findSub n h = some (p, q) → h = p ++ n ++ q := by
  intro h
  induction h with
  | nil =>
    intro p q hf
    simp only [findSub] at hf
    split at hf
    · rename_i hsw
      obtain ⟨s, hs⟩ := (startsWith_iff n []).mp hsw
      have hn : n = [] := by
        cases n with
        | nil => rfl
        | cons a t => simp at hs
      injection hf with hf
      injection hf with h1 h2
      subst h1; subst h2; subst hn; rfl
    · exact absurd hf (by simp)
  | cons c t ih =>
    intro p q hf
    simp only [findSub] at hf
    split at hf
    · rename_i hsw
      injection hf with hf
      injection hf with h1 h2
      subst h1
      subst h2
      simpa using startsWith_drop hsw
    · revert hf
      cases hft : findSub n t with
      | none => intro hf; exact absurd hf (by simp)
      | some pq =>
        obtain ⟨p', q'⟩ := pq
        intro hf
        injection hf with hf
        injection hf with h1 h2
        subst h2
        have := ih hft
        subst h1
        simp [this]

theorem findSub_isSome_of_decomp {n : List Char} :
    ∀ {p q h : List Char}, h = p ++ n ++ q → (findSub n h).isSome = true := by
  intro p
  induction p with
  | nil =>
    intro q h hh
    subst hh
    simp only [List.nil_append]
    cases hnq : (n ++ q : List Char) with
    | nil =>
      have hn0 : n = [] ∧ q = [] := by simpa [List.append_eq_nil] using hnq
      obtain ⟨rfl, rfl⟩ := hn0
      simp [findSub, startsWith]
    | cons c t =>
      have hsw : startsWith n (c :: t) = true := by
        rw [← hnq]
        exact (startsWith_iff n (n ++ q)).mpr ⟨q, rfl⟩
      simp [findSub, hsw]
  | cons a p' ih =>
    intro q h hh
    subst hh
    simp only [findSub]
    split
    · simp
    · have := ih (q := q) (h := p' ++ n ++ q) rfl
      cases hft : findSub n (p' ++ n ++ q) with
      | none => rw [hft] at this; simp at this
      | some pq => simp [List.cons_append, hft]

theorem containsSub_iff (hay n : List Char) :
    containsSub hay n = true ↔ ∃ p q, hay = p ++ n ++ q := by
  constructor
  · intro hc
    unfold containsSub at hc
    cases hf : findSub n hay with
    | none => rw [hf] at hc; simp at hc
    | some pq =>
      obtain ⟨p, q⟩ := pq
      exact ⟨p, q, findSub_some_decomp hf⟩
  · rintro ⟨p, q, rfl⟩
    exact findSub_isSome_of_decomp (p := p) (q := q) rfl

theorem findSub_snd_length {n : List Char} (hn : n ≠ []) {h p q : List Char}
    (hf : findSub n h = some (p, q)) : q.length < h.length := by
  have hd := findSub_some_decomp hf
  subst hd
  have : 0 < n.length := List.length_pos.mpr hn
  simp [List.length_append]
  omega

theorem findSub_marker_nil : findSub finalMarker [] = none := by decide

theorem splitFinalF_fuel :
    ∀ fuel fuel' s, s.length ≤ fuel → s.length ≤ fuel' →
      splitFinalF fuel s = splitFinalF fuel' s := by
  intro fuel
  induction fuel with
  | zero =>
    intro fuel' s hs _
    have hnil : s = [] := List.length_eq_zero.mp (Nat.le_zero.mp hs)
    subst hnil
    cases fuel' <;> simp [splitFinalF, findSub_marker_nil]
  | succ n ih =>
    intro fuel' s hs hs'
    cases fuel' with
    | zero =>
      have hnil : s = [] := List.length_eq_zero.mp (Nat.le_zero.mp hs')
      subst hnil
      simp [splitFinalF, findSub_marker_nil]
    | succ m =>
      simp only [splitFinalF]
      cases hf : findSub finalMarker s with
      | none => rfl
      | some pq =>
        obtain ⟨p, q⟩ := pq
        have hlt : q.length < s.length := findSub_snd_length (by decide) hf
        exact congrArg (p :: ·) (ih m q (by omega) (by omega))

theorem splitFinal_eq (s : List Char) :
    splitFinal s =
      match findSub finalMarker s with
      | none => [s]
      | some (p, q) => p :: splitFinal q := by
  unfold splitFinal
  cases hs : s.length with
  | zero =>
    have hnil : s = [] := List.length_eq_zero.mp (by omega)
    subst hnil
    simp [splitFinalF, findSub_marker_nil]
  | succ n =>
    simp only [splitFinalF]
    cases hf : findSub finalMarker s with
    | none => rfl
    | some pq =>
      obtain ⟨p, q⟩ := pq
      have hlt : q.length < s.length := findSub_snd_length (by decide) hf
      exact congrArg (p :: ·) (splitFinalF_fuel n q.length q (by omega) (by omega))

theorem afterLastFinalF_fuel :
    ∀ fuel fuel' s, s.length ≤ fuel → s.length ≤ fuel' →
      afterLastFinalF fuel s = afterLastFinalF fuel' s := by
  intro fuel
  induction fuel with
  | zero =>
    intro fuel' s hs _
    have hnil : s = [] := List.length_eq_zero.mp (Nat.le_zero.mp hs)
    subst hnil
    cases fuel' <;> simp [afterLastFinalF, findSub_marker_nil]
  | succ n ih =>
    intro fuel' s hs hs'
    cases fuel' with
    | zero =>
      have hnil : s = [] := List.length_eq_zero.mp (Nat.le_zero.mp hs')
      subst hnil
      simp [afterLastFinalF, findSub_marker_nil]
    | succ m =>
      simp only [afterLastFinalF]
      cases hf : findSub finalMarker s with
      | none => rfl
      | some pq =>
        obtain ⟨p, q⟩ := pq
        have hlt : q.length < s.length := findSub_snd_length (by decide) hf
        exact ih m q (by omega) (by omega)

theorem afterLastFinal_eq (s : List Char) :
    afterLastFinal s =
      match findSub finalMarker s with
      | none => s
      | some (_, q) => afterLastFinal q := by
  unfold afterLastFinal
  cases hs : s.length with
  | zero =>
    have hnil : s = [] := List.length_eq_zero.mp (by omega)
    subst hnil
    simp [afterLastFinalF, findSub_marker_nil]
  | succ n =>
    simp only [afterLastFinalF]
    cases hf : findSub finalMarker s with
    | none => rfl
    | some pq =>
      obtain ⟨p, q⟩ := pq
      have hlt : q.length < s.length := findSub_snd_length (by decide) hf
      exact afterLastFinalF_fuel n q.length q (by omega) (by omega)

theorem splitFinal_ne_nil (s : List Char) : splitFinal s ≠ [] := by
  rw [splitFinal_eq]
  split <;> simp

theorem getLastD_splitFinal (s : List Char) :
    (splitFinal s).getLastD [] = afterLastFinal s := by
  rw [splitFinal_eq, afterLastFinal_eq]
  split
  · rfl
  · rename_i p q hf
    rw [List.getLastD_cons]
    have hne := splitFinal_ne_nil q
    have h1 : (splitFinal q).getLastD p = (splitFinal q).getLastD [] := by
      cases hq : splitFinal q with
      | nil => exact absurd hq hne
      | cons a t =>
        rw [List.getLastD_eq_getLast?, List.getLastD_eq_getLast?]
        cases hl : (a :: t).getLast? with
        | none => simp at hl
        | some x => rfl
    rw [h1]
    exact getLastD_splitFinal q
termination_by s.length
decreasing_by
  exact findSub_snd_length (n := finalMarker) (by decide) (by assumption)

theorem afterLastFinal_no_marker (s : List Char) :
    findSub finalMarker (afterLastFinal s) = none := by
  rw [afterLastFinal_eq]
  split
  · assumption
  · rename_i p q hf
    exact afterLastFinal_no_marker q
termination_by s.length
decreasing_by
  exact findSub_snd_length (n := finalMarker) (by decide) (by assumption)

theorem afterLastFinal_decomp (s : List Char)
    (hc : containsSub s finalMarker = true) :
    ∃ p, s = p ++ finalMarker ++ afterLastFinal s := by
  unfold containsSub at hc
  cases hf : findSub finalMarker s with
  | none => rw [hf] at hc; simp at hc
  | some pq =>
    obtain ⟨p, q⟩ := pq
    have hd := findSub_some_decomp hf
    have hrw : afterLastFinal s = afterLastFinal q := by
      rw [afterLastFinal_eq]
      split
      · rename_i hnone; rw [hf] at hnone; cases hnone
      · rename_i p' q' hf'
        rw [hf] at hf'
        injection hf' with hf'
        injection hf' with h1 h2
        subst h2
        rfl
    by_cases hq : containsSub q finalMarker = true
    · obtain ⟨p', hp'⟩ := afterLastFinal_decomp q hq
      refine ⟨p ++ finalMarker ++ p', ?_⟩
      rw [hrw]
      conv_lhs => rw [hd, hp']
      simp
    · have hqnone : findSub finalMarker q = none := by
        unfold containsSub at hq
        cases hfq : findSub finalMarker q with
        | none => rfl
        | some pq2 => rw [hfq] at hq; simp at hq
      have hafter : afterLastFinal q = q := by
        rw [afterLastFinal_eq]
        split
        · rfl
        · rename_i p' q' hf'
          rw [hqnone] at hf'
          cases hf'
      exact ⟨p, by rw [hrw, hafter]; exact hd⟩
termination_by s.length
decreasing_by
  exact findSub_snd_length (n := finalMarker) (by decide) (by assumption)

theorem toList_mk (l : List Char) : (String.mk l).toList = l := rfl

/-! Lemmas about the runner loop. -/

theorem processItem_spec (proto : String → Except String String) (st : RunState) (item : Item) :
    processItem proto st item =
      { results := st.results ++ [entryFor proto item]
        correctCount := st.correctCount + (if correctBool proto item then 1 else 0)
        totalCount := st.totalCount + (if okBool proto item then 1 else 0) } := by
  unfold processItem entryFor correctBool okBool
  cases proto item.question with
  | ok fa => simp
  | error e => simp

theorem runLoop_skip_all (proto : String → Except String String) (processed : List String)
    (data : List Item) (st : RunState)
    (h : ∀ item ∈ data, item.question ∈ processed) :
    runLoop proto processed data st = (st, []) := by
  induction data generalizing st with
  | nil => rfl
  | cons item rest ih =>
    simp only [runLoop]
    rw [if_pos (h item (by simp))]
    exact ih st (fun it hit => h it (by simp [hit]))

theorem runLoop_fresh (proto : String → Except String String) (data : List Item) (st : RunState) :
    runLoop proto [] data st =
      ({ results := st.results ++ data.map (entryFor proto)
         correctCount := st.correctCount + (data.filter (correctBool proto)).length
         totalCount := st.totalCount + (data.filter (okBool proto)).length },
       data.map Item.question) := by
  induction data generalizing st with
  | nil => simp [runLoop]
  | cons item rest ih =>
    simp only [runLoop]
    rw [if_neg (List.not_mem_nil item.question)]
    rw [ih (processItem proto st item), processItem_spec]
    simp only [List.map_cons, List.filter_cons, Prod.mk.injEq, RunState.mk.injEq]
    refine ⟨⟨by simp, ?_, ?_⟩, trivial⟩
    · cases hc : correctBool proto item <;> simp [hc] <;> omega
    · cases hc : okBool proto item <;> simp [hc] <;> omega

theorem entryQuestion_entryFor (proto : String → Except String String) (item : Item) :
    entryQuestion (entryFor proto item) = item.question := by
  unfold entryQuestion entryFor
  cases proto item.question <;> simp

theorem runExperiment_fresh (proto : String → Except String String) (data : List Item) :
    runExperiment proto data freshRunState =
      ({ results := data.map (entryFor proto)
         correctCount := (data.filter (correctBool proto)).length
         totalCount := (data.filter (okBool proto)).length },
       data.map Item.question) := by
  have h := runLoop_fresh proto data { results := [], correctCount := 0, totalCount := 0 }
  simpa [runExperiment, freshRunState] using h

theorem runExperiment_fresh_questions (proto : String → Except String String) (data : List Item) :
    (runExperiment proto data freshRunState).1.results.map entryQuestion =
      data.map Item.question := by
  rw [runExperiment_fresh]
  simp only [List.map_map]
  exact List.map_congr_left (fun it _ => entryQuestion_entryFor proto it)

theorem runLoop_log_not_processed (proto : String → Except String String)
    (processed : List String) (data : List Item) :
    ∀ (st : RunState) (q : String), q ∈ (runLoop proto processed data st).2 → q ∉ processed := by
  induction data with
  | nil => intro st q hq; simp [runLoop] at hq
  | cons item rest ih =>
    intro st q hq
    simp only [runLoop] at hq
    by_cases h : item.question ∈ processed
    · rw [if_pos h] at hq
      exact ih st q hq
    · rw [if_neg h] at hq
      rcases List.mem_cons.mp hq with rfl | hq2
      · exact h
      · exact ih _ q hq2

/-! Lemmas about the streaming interruption controller. -/

theorem britishStreamLoop_oppPrompts (question : String) (gov opp : Agent)
    (tokens : List String) : ∀ st : StreamState,
    (britishStreamLoop question gov opp tokens st).oppPrompts =
      st.oppPrompts ++ (checkPoints tokens st.currentChunk).map
        (fun c => buildFullPrompt opp.name (oppCheckPrompt question (pyStripStr c))) := by
  induction tokens with
  | nil => intro st; simp [britishStreamLoop, checkPoints]
  | cons tok rest ih =>
    intro st
    simp only [britishStreamLoop, checkPoints]
    by_cases hc : checkCond (st.currentChunk ++ tok)
    · rw [if_pos hc, if_pos hc]
      by_cases hi : strContains
          (agentSpeak opp (oppCheckPrompt question (pyStripStr (st.currentChunk ++ tok))))
          "INTERRUPT:"
      · rw [if_pos hi, ih]
        simp
      · rw [if_neg hi, ih]
        simp
    · rw [if_neg hc, if_neg hc, ih]

theorem britishStreamLoop_fullSpeech (question : String) (gov opp : Agent)
    (tokens : List String) : ∀ st : StreamState,
    (britishStreamLoop question gov opp tokens st).fullSpeech =
      st.fullSpeech ++ joinAll tokens := by
  induction tokens with
  | nil => intro st; simp [britishStreamLoop, joinAll]
  | cons tok rest ih =>
    intro st
    simp only [britishStreamLoop, joinAll]
    by_cases hc : checkCond (st.currentChunk ++ tok)
    · rw [if_pos hc]
      by_cases hi : strContains
          (agentSpeak opp (oppCheckPrompt question (pyStripStr (st.currentChunk ++ tok))))
          "INTERRUPT:"
      · rw [if_pos hi, ih]
        simp [String.append_assoc]
      · rw [if_neg hi, ih]
        simp [String.append_assoc]
    · rw [if_neg hc, ih]
      simp [String.append_assoc]

theorem britishStreamLoop_no_interrupt (question : String) (gov opp : Agent)
    (hNO : ∀ p, strContains (opp.speak p) "INTERRUPT:" = false)
    (tokens : List String) : ∀ st : StreamState,
    (britishStreamLoop question gov opp tokens st).interruptionCount = st.interruptionCount ∧
    (britishStreamLoop question gov opp tokens st).transcript = st.transcript := by
  induction tokens with
  | nil => intro st; exact ⟨rfl, rfl⟩
  | cons tok rest ih =>
    intro st
    simp only [britishStreamLoop]
    by_cases hc : checkCond (st.currentChunk ++ tok)
    · rw [if_pos hc, if_neg (by rw [agentSpeak, hNO]; simp)]
      exact ih _
    · rw [if_neg hc]
      exact ih _

theorem britishStreamLoop_always_interrupt (question : String) (gov opp : Agent)
    (d : String) (hd : ∀ p, opp.speak p = d)
    (hint : strContains d "INTERRUPT:" = true)
    (tokens : List String) : ∀ st : StreamState,
    (britishStreamLoop question gov opp tokens st).interruptionCount =
      st.interruptionCount + (checkPoints tokens st.currentChunk).length ∧
    (britishStreamLoop question gov opp tokens st).transcript =
      st.transcript ++ (checkPoints tokens st.currentChunk).flatMap (fun _ =>
        [⟨opp.name, "POI: " ++ reasonOf d⟩,
         ⟨gov.name, "Response to POI: " ++
           gov.speak (buildFullPrompt gov.name (govAddressPrompt question (reasonOf d)))⟩]) := by
  induction tokens with
  | nil => intro st; simp [britishStreamLoop, checkPoints]
  | cons tok rest ih =>
    intro st
    simp only [britishStreamLoop, checkPoints]
    by_cases hc : checkCond (st.currentChunk ++ tok)
    · have hdec : agentSpeak opp (oppCheckPrompt question (pyStripStr (st.currentChunk ++ tok))) = d := by
        rw [agentSpeak, hd]
      rw [if_pos hc, if_pos hc, if_pos (by rw [hdec]; exact hint), hdec]
      obtain ⟨h1, h2⟩ := ih _
      constructor
      · rw [h1]
        simp
        omega
      · rw [h2]
        simp [agentSpeak]
    · rw [if_neg hc, if_neg hc]
      exact ih _

/-- A string that begins with the INTERRUPT marker contains it. -/
theorem strContains_interrupt_head (x : String) :
    strContains ("INTERRUPT: " ++ x) "INTERRUPT:" = true := by
  unfold strContains containsSub
  have hsplit : ("INTERRUPT: " ++ x).toList =
      [] ++ "INTERRUPT:".toList ++ (" " ++ x).toList := by
    have h1 : ("INTERRUPT: " : String) = "INTERRUPT:" ++ " " := by decide
    rw [h1, String.append_assoc]
    simp [String.toList]
  exact findSub_isSome_of_decomp hsplit

/-! Claim theorems. -/

/-- C1 (amended): re-running the runner with the same output path and the
same dataset slice is idempotent: the second invocation leaves the
persisted run state unchanged and processes no question at all (its
processed-question log is empty, so no question already present is ever
reprocessed). Moreover, when the question strings of the dataset slice
are pairwise distinct, the persisted result list after the second
invocation contains no duplicate questions; and when every item runs
without a per-item exception, total_count equals the dataset size, not
double it. (As literally stated, for every dataset, the claim fails: a
dataset slice holding the same question twice yields a duplicated result
list, see the counterexample.) -/
theorem claim_C1_resume_idempotent (proto : String → Except String String) (data : List Item) :
    (runExperiment proto data (runExperiment proto data freshRunState).1).1 =
      (runExperiment proto data freshRunState).1 ∧
    (runExperiment proto data (runExperiment proto data freshRunState).1).2 = [] ∧
    ((data.map Item.question).Nodup →
      ((runExperiment proto data (runExperiment proto data freshRunState).1).1.results.map
        entryQuestion).Nodup) ∧
    ((∀ item ∈ data, okBool proto item = true) →
      (runExperiment proto data (runExperiment proto data freshRunState).1).1.totalCount =
        data.length) ∧
    (∀ (prior : RunState) (q : String), q ∈ prior.results.map entryQuestion →
      q ∉ (runExperiment proto data prior).2) := by
  have hq := runExperiment_fresh_questions proto data
  have hskip : ∀ item ∈ data,
      item.question ∈ (runExperiment proto data freshRunState).1.results.map entryQuestion := by
    intro item hmem
    rw [hq]
    exact List.mem_map_of_mem Item.question hmem
  have hsecond :
      runExperiment proto data (runExperiment proto data freshRunState).1 =
        ((runExperiment proto data freshRunState).1, []) := by
    unfold runExperiment
    exact runLoop_skip_all proto _ data _ (by
      intro item hmem
      exact hskip item hmem)
  refine ⟨by rw [hsecond], by rw [hsecond], ?_, ?_, ?_⟩
  · intro hnodup
    rw [hsecond]
    simpa [hq] using hnodup
  · intro hok
    rw [hsecond]
    simp only [runExperiment_fresh]
    rw [List.filter_eq_self.mpr hok]
  · intro prior q hq2 hcontra
    exact runLoop_log_not_processed proto _ data prior q hcontra hq2

/-- C1 counterexample: with a dataset slice that contains the same
question twice (and a protocol that always succeeds), the persisted
result list after the second invocation with the same output path still
contains duplicate questions, contradicting the claim as stated for
every dataset. -/
theorem claim_C1_counterexample :
    ¬ ((runExperiment (fun q => .ok q) [⟨"q", "a"⟩, ⟨"q", "a"⟩]
        (runExperiment (fun q => .ok q) [⟨"q", "a"⟩, ⟨"q", "a"⟩] freshRunState).1).1.results.map
          entryQuestion).Nodup := by
  decide

/-- C1 witness: at a two-item dataset with distinct questions and an
always-succeeding protocol, the second invocation is a no-op, the
persisted questions are duplicate-free and total_count is the dataset
size 2. -/
theorem claim_C1_witness :
    (runExperiment (fun q => .ok q) [⟨"q1", "a1"⟩, ⟨"q2", "a2"⟩]
      (runExperiment (fun q => .ok q) [⟨"q1", "a1"⟩, ⟨"q2", "a2"⟩] freshRunState).1).1 =
        (runExperiment (fun q => .ok q) [⟨"q1", "a1"⟩, ⟨"q2", "a2"⟩] freshRunState).1 ∧
    ((runExperiment (fun q => .ok q) [⟨"q1", "a1"⟩, ⟨"q2", "a2"⟩]
      (runExperiment (fun q => .ok q) [⟨"q1", "a1"⟩, ⟨"q2", "a2"⟩] freshRunState).1).1.results.map
        entryQuestion).Nodup ∧
    (runExperiment (fun q => .ok q) [⟨"q1", "a1"⟩, ⟨"q2", "a2"⟩]
      (runExperiment (fun q => .ok q) [⟨"q1", "a1"⟩, ⟨"q2", "a2"⟩] freshRunState).1).1.totalCount = 2 ∧
    "q1" ∉ (runExperiment (fun q => .ok q) [⟨"q1", "a1"⟩, ⟨"q2", "a2"⟩]
      (runExperiment (fun q => .ok q) [⟨"q1", "a1"⟩, ⟨"q2", "a2"⟩] freshRunState).1).2 := by
  have h := claim_C1_resume_idempotent (fun q => .ok q) [⟨"q1", "a1"⟩, ⟨"q2", "a2"⟩]
  refine ⟨h.1, h.2.2.1 (by decide), h.2.2.2.1 (by decide), ?_⟩
  exact h.2.2.2.2 (runExperiment (fun q => .ok q) [⟨"q1", "a1"⟩, ⟨"q2", "a2"⟩] freshRunState).1
    "q1" (by decide)

/-- C2: correctness scoring normalizes both strings (lowercase, strip
leading/trailing punctuation, then leading/trailing whitespace); an
empty normalized ground truth scores incorrect, and otherwise the item
is correct exactly when the normalized ground truth occurs as a
substring of the normalized prediction; including the three quoted
examples. -/
theorem claim_C2_correctness_scoring :
    (∀ prediction groundTruth : String,
      (normalize groundTruth = "" → evaluateCorrectness prediction groundTruth = false) ∧
      (normalize groundTruth ≠ "" →
        (evaluateCorrectness prediction groundTruth = true ↔
          ∃ p q, (normalize prediction).toList =
            p ++ (normalize groundTruth).toList ++ q))) ∧
    evaluateCorrectness "The answer is Paris." "paris" = true ∧
    evaluateCorrectness "Lyon" "Paris" = false ∧
    (∀ anything : String, evaluateCorrectness anything "" = false) := by
  have hnorm : ∀ prediction groundTruth : String, normalize groundTruth ≠ "" →
      (evaluateCorrectness prediction groundTruth = true ↔
        ∃ p q, (normalize prediction).toList =
          p ++ (normalize groundTruth).toList ++ q) := by
    intro prediction groundTruth h
    unfold evaluateCorrectness
    rw [if_neg h]
    exact containsSub_iff (normalize prediction).toList (normalize groundTruth).toList
  refine ⟨?_, by decide, by decide, ?_⟩
  · intro prediction groundTruth
    refine ⟨?_, hnorm prediction groundTruth⟩
    intro h
    unfold evaluateCorrectness
    rw [if_pos h]
  · intro anything
    unfold evaluateCorrectness
    rw [if_pos (by decide : normalize "" = "")]

/-- C2 witness: the scoring theorem applied at concrete inputs: a ground
truth of bare punctuation normalizes to the empty string and scores
false, and the Paris example scores true through the substring
characterization. -/
theorem claim_C2_witness :
    evaluateCorrectness "anything" "?!." = false ∧
    evaluateCorrectness "The answer is Paris." "paris" = true := by
  refine ⟨(claim_C2_correctness_scoring.1 "anything" "?!.").1 (by decide), ?_⟩
  exact ((claim_C2_correctness_scoring.1 "The answer is Paris." "paris").2
    (by decide)).mpr ⟨"the answer is ".toList, [], by decide⟩

/-- C5: final-answer extraction returns, for a text containing the
literal marker, the whitespace-stripped text after the last occurrence
of the marker (the suffix after an occurrence of the marker in which the
marker does not occur again), and returns any text without the marker
unchanged; including the two quoted examples. -/
theorem claim_C5_final_answer_extraction :
    (∀ text : String,
      (strContains text "Final Answer:" = false → extractFinalAnswer text = text) ∧
      (strContains text "Final Answer:" = true →
        extractFinalAnswer text = String.mk (pyStrip (afterLastFinal text.toList)) ∧
        ∃ p, text.toList = p ++ finalMarker ++ afterLastFinal text.toList ∧
          containsSub (afterLastFinal text.toList) finalMarker = false)) ∧
    extractFinalAnswer "blah blah Final Answer: Paris" = "Paris" ∧
    extractFinalAnswer "no marker here" = "no marker here" := by
  refine ⟨?_, by decide, by decide⟩
  intro text
  constructor
  · intro h
    have h' : containsSub text.toList finalMarker = false := h
    unfold extractFinalAnswer
    rw [h']
    simp
  · intro h
    have h' : containsSub text.toList finalMarker = true := h
    refine ⟨?_, ?_⟩
    · unfold extractFinalAnswer
      rw [h', if_pos rfl, getLastD_splitFinal]
    · obtain ⟨p, hp⟩ := afterLastFinal_decomp text.toList h'
      refine ⟨p, hp, ?_⟩
      unfold containsSub
      rw [afterLastFinal_no_marker]
      rfl

/-- C5 witness: the extraction theorem applied at the two quoted
examples, discharging the containment hypotheses by computation. -/
theorem claim_C5_witness :
    extractFinalAnswer "no marker here" = "no marker here" ∧
    extractFinalAnswer "blah blah Final Answer: Paris" =
      String.mk (pyStrip (afterLastFinal "blah blah Final Answer: Paris".toList)) := by
  refine ⟨(claim_C5_final_answer_extraction.1 "no marker here").1 (by decide), ?_⟩
  exact ((claim_C5_final_answer_extraction.1 "blah blah Final Answer: Paris").2 (by decide)).1

/-- C6: on a fresh run, every item of the dataset contributes exactly
one entry to the persisted result list in order; an item whose protocol
run raises is recorded as an error entry carrying the question and the
error message (so the run continues with the remaining items), and
neither total_count nor correct_count counts errored items: they equal
the number of successfully processed items and of correct items
respectively. -/
theorem claim_C6_per_item_errors (proto : String → Except String String) (data : List Item) :
    (runExperiment proto data freshRunState).1.results = data.map (entryFor proto) ∧
    (runExperiment proto data freshRunState).1.totalCount =
      (data.filter (okBool proto)).length ∧
    (runExperiment proto data freshRunState).1.correctCount =
      (data.filter (correctBool proto)).length ∧
    (runExperiment proto data freshRunState).2 = data.map Item.question ∧
    (∀ item ∈ data, ∀ e, proto item.question = .error e →
      ResultEntry.err item.question e ∈ (runExperiment proto data freshRunState).1.results) := by
  have h := runExperiment_fresh proto data
  refine ⟨by rw [h], by rw [h], by rw [h], by rw [h], ?_⟩
  intro item hmem e he
  rw [h]
  have : entryFor proto item = ResultEntry.err item.question e := by
    unfold entryFor
    rw [he]
  exact this ▸ List.mem_map_of_mem (entryFor proto) hmem

/-- C6 witness: with a protocol that raises exactly on the middle
question of a three-item dataset, the error entry for that question is
in the persisted results and total_count counts only the two successful
items. -/
theorem claim_C6_witness :
    ResultEntry.err "q2" "boom" ∈
      (runExperiment
        (fun q => if q = "q2" then .error "boom" else .ok "Final Answer: yes")
        [⟨"q1", "yes"⟩, ⟨"q2", "no"⟩, ⟨"q3", "yes"⟩] freshRunState).1.results ∧
    (runExperiment
        (fun q => if q = "q2" then .error "boom" else .ok "Final Answer: yes")
        [⟨"q1", "yes"⟩, ⟨"q2", "no"⟩, ⟨"q3", "yes"⟩] freshRunState).1.totalCount = 2 := by
  have h := claim_C6_per_item_errors
    (fun q => if q = "q2" then .error "boom" else .ok "Final Answer: yes")
    [⟨"q1", "yes"⟩, ⟨"q2", "no"⟩, ⟨"q3", "yes"⟩]
  exact ⟨h.2.2.2.2 ⟨"q2", "no"⟩ (by decide) "boom" (by rfl), by decide⟩

/-- C3: in the streaming interruption controller, the Opposition is
consulted exactly at the check points determined by the chunk condition
(buffer longer than 120 characters, or stripped chunk ending in a
sentence-terminal mark with the buffer longer than 40), whatever the
agents answer; with a scripted Opposition that always answers NO the
interruption counter stays 0, no interruption turn enters the transcript
and the accumulated full speech is the concatenation of all streamed
fragments (recorded as the Full Speech transcript turn of the full run);
with a scripted Opposition that always answers INTERRUPT: x, every check
point contributes exactly one POI turn and one Government response turn
and the counter equals the number of check points. -/
theorem claim_C3_interruption_controller
    (question context : String) (tokens : List String)
    (govName oppName x : String) (govSpeak : String → String)
    (govStream oppStream : String → List String) (rounds : Nat) :
    (∀ gov opp : Agent,
      (britishStreamLoop question gov opp tokens initStreamState).oppPrompts =
        (checkPoints tokens "").map
          (fun c => buildFullPrompt opp.name (oppCheckPrompt question (pyStripStr c)))) ∧
    ((britishStreamLoop question ⟨govName, govSpeak, govStream⟩
        ⟨oppName, fun _ => "NO", oppStream⟩ tokens initStreamState).interruptionCount = 0 ∧
      (britishStreamLoop question ⟨govName, govSpeak, govStream⟩
        ⟨oppName, fun _ => "NO", oppStream⟩ tokens initStreamState).transcript = [] ∧
      (britishStreamLoop question ⟨govName, govSpeak, govStream⟩
        ⟨oppName, fun _ => "NO", oppStream⟩ tokens initStreamState).fullSpeech = joinAll tokens) ∧
    ((britishStreamLoop question ⟨govName, govSpeak, govStream⟩
        ⟨oppName, fun _ => "INTERRUPT: " ++ x, oppStream⟩ tokens initStreamState).interruptionCount =
        (checkPoints tokens "").length ∧
      (britishStreamLoop question ⟨govName, govSpeak, govStream⟩
        ⟨oppName, fun _ => "INTERRUPT: " ++ x, oppStream⟩ tokens initStreamState).transcript =
        (checkPoints tokens "").flatMap (fun _ =>
          [⟨oppName, "POI: " ++ reasonOf ("INTERRUPT: " ++ x)⟩,
           ⟨govName, "Response to POI: " ++ govSpeak (buildFullPrompt govName
             (govAddressPrompt question (reasonOf ("INTERRUPT: " ++ x))))⟩])) ∧
    (∃ r, (britishRun question
        [⟨govName, govSpeak, govStream⟩, ⟨oppName, fun _ => "NO", oppStream⟩]
        context rounds).1 = .ok r ∧
      r.interruptions = some 0 ∧
      (⟨govName, "Full Speech: " ++ joinAll (agentStream ⟨govName, govSpeak, govStream⟩
        (govOpeningPrompt context question))⟩ : Turn) ∈ r.transcript) := by
  refine ⟨?_, ?_, ?_, ?_⟩
  · intro gov opp
    have h := britishStreamLoop_oppPrompts question gov opp tokens initStreamState
    simpa [initStreamState] using h
  · have h := britishStreamLoop_no_interrupt question ⟨govName, govSpeak, govStream⟩
      ⟨oppName, fun _ => "NO", oppStream⟩ (fun _ => rfl) tokens initStreamState
    have hfull := britishStreamLoop_fullSpeech question ⟨govName, govSpeak, govStream⟩
      ⟨oppName, fun _ => "NO", oppStream⟩ tokens initStreamState
    exact ⟨h.1, h.2, by simpa [initStreamState] using hfull⟩
  · have h := britishStreamLoop_always_interrupt question ⟨govName, govSpeak, govStream⟩
      ⟨oppName, fun _ => "INTERRUPT: " ++ x, oppStream⟩ ("INTERRUPT: " ++ x)
      (fun p => rfl) (strContains_interrupt_head x) tokens initStreamState
    constructor
    · have h1 := h.1
      simpa [initStreamState] using h1
    · have h2 := h.2
      simpa [initStreamState] using h2
  · simp only [britishRun]
    have hcount := (britishStreamLoop_no_interrupt question ⟨govName, govSpeak, govStream⟩
      ⟨oppName, fun _ => "NO", oppStream⟩ (fun _ => rfl)
      (agentStream ⟨govName, govSpeak, govStream⟩ (govOpeningPrompt context question))
      { initStreamState with
        transcript := [⟨"System", "Government (" ++ govName ++ ") starts speaking."⟩] }).1
    have hfull := britishStreamLoop_fullSpeech question ⟨govName, govSpeak, govStream⟩
      ⟨oppName, fun _ => "NO", oppStream⟩
      (agentStream ⟨govName, govSpeak, govStream⟩ (govOpeningPrompt context question))
      { initStreamState with
        transcript := [⟨"System", "Government (" ++ govName ++ ") starts speaking."⟩] }
    simp only [initStreamState] at hcount hfull
    refine ⟨_, rfl, ?_, ?_⟩
    · simp only [initStreamState]
      rw [hcount]
    · simp only [initStreamState]
      rw [hfull]
      simp

/-- C8: get_usage always reports total_tokens as the sum of the two
counters; add_usage increases each counter by the reported amount, so
both are monotonically non-decreasing across any sequence of add_usage
calls; the quoted (10,5) then (7,3) example yields (17,8,25); and after
reset_usage both counters are 0. -/
theorem claim_C8_token_accounting :
    (∀ u : ProviderUsage, getUsage (some u) =
      .ok ⟨u.promptTokens, u.completionTokens, u.promptTokens + u.completionTokens⟩) ∧
    (∀ (u : ProviderUsage) (p c : Nat),
      addUsage (some u) p c = .ok (some ⟨u.promptTokens + p, u.completionTokens + c⟩) ∧
      u.promptTokens ≤ u.promptTokens + p ∧ u.completionTokens ≤ u.completionTokens + c) ∧
    (∀ (u : ProviderUsage) (calls : List (Nat × Nat)),
      u.promptTokens ≤ (applyUsageCalls u calls).promptTokens ∧
      u.completionTokens ≤ (applyUsageCalls u calls).completionTokens) ∧
    (addUsage llmProviderInit 10 5 = .ok (some ⟨10, 5⟩) ∧
      addUsage (some ⟨10, 5⟩) 7 3 = .ok (some ⟨17, 8⟩) ∧
      getUsage (some ⟨17, 8⟩) = .ok ⟨17, 8, 25⟩) ∧
    (∀ st : Option ProviderUsage, resetUsage st = some ⟨0, 0⟩ ∧
      getUsage (resetUsage st) = .ok ⟨0, 0, 0⟩) := by
  refine ⟨fun u => rfl, fun u p c => ⟨rfl, Nat.le_add_right _ _, Nat.le_add_right _ _⟩,
    ?_, ⟨rfl, rfl, rfl⟩, fun st => ⟨rfl, rfl⟩⟩
  intro u calls
  induction calls generalizing u with
  | nil => exact ⟨Nat.le_refl _, Nat.le_refl _⟩
  | cons pc rest ih =>
    have h := ih (applyUsage u pc)
    exact ⟨Nat.le_trans (Nat.le_add_right _ _) h.1, Nat.le_trans (Nat.le_add_right _ _) h.2⟩

/-- C10: a freshly constructed MockProvider never ran the base-class
initializer, so its usage counters do not exist: get_usage and add_usage
on it produce an AttributeError instead of zeroed counters, while a
provider that ran the base initializer reports zeroed counters. -/
theorem claim_C10_mock_provider_missing_init :
    mockProviderInit = none ∧
    getUsage mockProviderInit = .error "AttributeError: prompt_tokens" ∧
    addUsage mockProviderInit 1 2 = .error "AttributeError: prompt_tokens" ∧
    getUsage llmProviderInit = .ok ⟨0, 0, 0⟩ :=
  ⟨rfl, rfl, rfl, rfl⟩

/-- C4: every protocol run called with an agent list whose length
differs from the fixed arity (1 for Single-Chain, 2 for Socratic,
Congress and British-Parliamentary) returns the arity error immediately
(a raised ValueError in the source, the InvalidArityError of the spec)
with an empty backend-call log: the backend is never invoked. -/
theorem claim_C4_arity_errors (question context : String) (agents : List Agent) (rounds : Nat) :
    (agents.length ≠ 1 →
      singleCoTRun question agents context =
        (.error "SingleCoTProtocol requires exactly one agent.", [])) ∧
    (agents.length ≠ 2 →
      socraticRun question agents context rounds =
        (.error "SocraticDialogueProtocol requires exactly two agents (Student, Socrates).", []) ∧
      congressRun question agents context rounds =
        (.error "AmericanCongressProtocol requires exactly two agents (Affirmative, Negative).", []) ∧
      britishRun question agents context rounds =
        (.error "BritishParliamentaryProtocol requires exactly two agents (Government, Opposition).", [])) := by
  constructor
  · intro h
    cases agents with
    | nil => rfl
    | cons a t =>
      cases t with
      | nil => exact absurd rfl h
      | cons b t2 => rfl
  · intro h
    cases agents with
    | nil => exact ⟨rfl, rfl, rfl⟩
    | cons a t =>
      cases t with
      | nil => exact ⟨rfl, rfl, rfl⟩
      | cons b t2 =>
        cases t2 with
        | nil => exact absurd rfl h
        | cons c t3 => exact ⟨rfl, rfl, rfl⟩

/-- C4 witness: the arity theorem applied to the empty agent list. -/
theorem claim_C4_witness :
    singleCoTRun "q" [] "" =
      (.error "SingleCoTProtocol requires exactly one agent.", []) ∧
    socraticRun "q" [] "" 2 =
      (.error "SocraticDialogueProtocol requires exactly two agents (Student, Socrates).", []) ∧
    congressRun "q" [] "" 2 =
      (.error "AmericanCongressProtocol requires exactly two agents (Affirmative, Negative).", []) ∧
    britishRun "q" [] "" 2 =
      (.error "BritishParliamentaryProtocol requires exactly two agents (Government, Opposition).", []) := by
  have h := claim_C4_arity_errors "q" "" [] 2
  exact ⟨h.1 (by decide), (h.2 (by decide)).1, (h.2 (by decide)).2.1, (h.2 (by decide)).2.2⟩

/-- C7 (amended): an existing output file that cannot be decoded as JSON
(json.JSONDecodeError) is treated as start fresh with a warning and
never fatally: the resume-load step succeeds with the empty prior result
list, zero counters and an empty dedup set. A file that decodes to JSON
of unexpected shape is not covered by that handler and can raise, see
the counterexample. -/
theorem claim_C7_malformed_resume (e : String) :
    loadResume (.error e) = .ok ⟨.jarr [], .jnum 0, .jnum 0, []⟩ := rfl

/-- C7 counterexample: a file whose content decodes to the JSON list
["oops"] is an existing malformed output file, yet the resume-load step
raises (r.get("question") on the string element is an AttributeError
that the except json.JSONDecodeError handler does not catch) instead of
proceeding with an empty prior result list. -/
theorem claim_C7_counterexample :
    loadResume (.ok (.jarr [.jstr "oops"])) = .error "AttributeError: get" := rfl

/-- C7 witness: the amended theorem applied to a concrete decode
error. -/
theorem claim_C7_witness :
    loadResume (.error "Expecting value: line 1 column 1 (char 0)") =
      .ok ⟨.jarr [], .jnum 0, .jnum 0, []⟩ :=
  claim_C7_malformed_resume "Expecting value: line 1 column 1 (char 0)"

/-- C9: the metadata member written by _save_results never contains the
prompt_tokens, completion_tokens or total_tokens keys, so the per-protocol
summary record obtained by load_metadata from a freshly written result
file always carries token counts 0 (the .get defaults), whatever token
usage the backend accumulated; only the accuracy is read back. The
claimed equality with recorded token usage therefore holds only
vacuously: no usage is ever recorded in the metadata. -/
theorem claim_C9_summary_token_counts (pn dn ts : String) (results : List JVal) (cc tc : Nat) :
    jlookup (saveMetadataFields pn dn ts cc tc) "prompt_tokens" = none ∧
    jlookup (saveMetadataFields pn dn ts cc tc) "completion_tokens" = none ∧
    jlookup (saveMetadataFields pn dn ts cc tc) "total_tokens" = none ∧
    loadMetadata (saveResultsFile pn dn ts results cc tc) =
      .ok ⟨.jnum (accuracyOf cc tc), .jnum 0, .jnum 0, .jnum 0⟩ :=
  ⟨rfl, rfl, rfl, rfl⟩

/-- C9 evaluation at a concrete failing input: one correct item out of
two processed while the backend accumulated usage (10, 5); the saved
metadata has no token members and the summary reads back zeros even
though get_usage reports 15 total tokens. -/
theorem claim_C9_concrete_divergence :
    loadMetadata (saveResultsFile "SingleCoTProtocol" "hotpot_qa" "t0" [] 1 2) =
      .ok ⟨.jnum (accuracyOf 1 2), .jnum 0, .jnum 0, .jnum 0⟩ ∧
    accuracyOf 1 2 = 1 / 2 ∧
    getUsage (some ⟨10, 5⟩) = .ok ⟨10, 5, 15⟩ := by
  refine ⟨rfl, ?_, rfl⟩
  norm_num [accuracyOf]

end MAD
